import Mathlib

/-
Verification of the pgfplots picture builder and its compilation pipeline.

The development shallowly embeds `src/lib.rs`:
pure structures (`PictureKey`, `Picture`) become Lean structures and
functions; the `Display` implementation becomes a string-producing
function; the filesystem / subprocess parts (`temp_output_dir`,
`compile_figure_with`, `Picture::show_with`) become explicit
state-passing functions over a small operating-system model whose
fallible primitives are driven by an oracle, and which record a trace
of the externally visible events.

The crate is modelled with the `inclusive` cargo feature disabled, so
the `Compiler::Tectonic` variant and `Picture::show` are absent, as in
a default build.
-/

namespace Pgfplots

/-- Concatenation of the strings produced for each element of a list, in
list order; the shape a `for` loop of `write!` calls produces. -/
def strConcat {α : Type} (f : α → String) : List α → String
  | [] => ""
  | x :: xs => f x ++ strConcat f xs

/-- Option key of a `Picture`. The only variant in the source is the
free-form fallback `Custom(String)`, written verbatim into the options. -/
inductive PictureKey where
  | Custom (key : String)
deriving DecidableEq

/-- Display for `PictureKey`: `Custom(key)` prints the payload verbatim. -/
def PictureKey.render : PictureKey → String
  | PictureKey.Custom key => key

/-- Modelled from the spec: the `axis` module of the crate is not under
`src/` (only `pub mod axis;` and the `Display` call sites are), so an
`Axis` is modelled by its rendered textual block, the only part of it
`Picture`'s rendering uses. -/
structure Axis where
  render : String
deriving DecidableEq

/-- The `Picture` struct: a private ordered key list and a public list of
axes. -/
structure Picture where
  keys : List PictureKey
  axes : List Axis
deriving DecidableEq

/-- `Picture::new()`, i.e. `Default::default()`: empty keys, empty axes. -/
def Picture.new : Picture := { keys := [], axes := [] }

/-- `Picture::add_key`: the match on the key does nothing for `Custom`
(the only variant), then the key is pushed at the end of `keys`. The
function is total: adding a key cannot fail. -/
def Picture.add_key (p : Picture) (key : PictureKey) : Picture :=
  match key with
  | PictureKey.Custom _ => { p with keys := p.keys ++ [key] }

/-- A sequence of `add_key` calls, in order. -/
def Picture.addKeys (p : Picture) (ks : List PictureKey) : Picture :=
  ks.foldl Picture.add_key p

/-- The `Display` implementation for `Picture` as the string it writes:
the opening tag, then (only when `keys` is non-empty) a bracketed block
with one tab-indented comma-terminated key per line, a newline, each
axis followed by a newline, and the closing tag. -/
def Picture.render (p : Picture) : String :=
  "\\begin{tikzpicture}"
    ++ (if p.keys.isEmpty then "" else
        "[\n" ++ strConcat (fun k => "\t" ++ k.render ++ ",\n") p.keys ++ "]")
    ++ "\n"
    ++ strConcat (fun a => a.render ++ "\n") p.axes
    ++ "\\end{tikzpicture}"

/-- The `Display` implementation again, but as the formatter-threading
computation it is in the source: `fmt(&self, f)` receives the
formatter's buffer, appends to it with successive `write!` calls, and
only reads `self`; the returned `Picture` is the borrowed `self` after
the call. -/
def Picture.fmtDisplay (p : Picture) (buf : String) : String × Picture :=
  let b1 := buf ++ "\\begin{tikzpicture}"
  let b2 := if p.keys.isEmpty then b1 else
    (p.keys.foldl (fun b k => b ++ ("\t" ++ k.render ++ ",\n")) (b1 ++ "[\n")) ++ "]"
  let b3 := b2 ++ "\n"
  let b4 := p.axes.foldl (fun b a => b ++ (a.render ++ "\n")) b3
  (b4 ++ "\\end{tikzpicture}", p)

/-- `Picture::standalone_string`: the fixed standalone LaTeX preamble,
the rendered picture, and the fixed closing. -/
def Picture.standalone_string (p : Picture) : String :=
  "\\documentclass{standalone}\n\\usepackage{pgfplots}\n\\begin{document}\n"
    ++ p.render ++ "\n\\end{document}"

theorem foldl_append_eq_strConcat {α : Type} (f : α → String) :
    ∀ (l : List α) (b : String),
      l.foldl (fun acc x => acc ++ f x) b = b ++ strConcat f l := by
  intro l
  induction l with
  | nil => intro b; simp [strConcat]
  | cons x xs ih =>
      intro b
      rw [List.foldl_cons, ih (b ++ f x), strConcat, String.append_assoc]

theorem fmtDisplay_eq (p : Picture) (buf : String) :
    p.fmtDisplay buf = (buf ++ p.render, p) := by
  unfold Picture.fmtDisplay Picture.render
  by_cases h : p.keys.isEmpty
  · simp only [h, if_true]
    rw [foldl_append_eq_strConcat (fun a : Axis => a.render ++ "\n")]
    simp [String.append_assoc]
  · simp only [h, if_false, Bool.false_eq_true]
    rw [foldl_append_eq_strConcat (fun k : PictureKey => "\t" ++ k.render ++ ",\n")]
    rw [foldl_append_eq_strConcat (fun a : Axis => a.render ++ "\n")]
    simp [String.append_assoc]
    rfl

theorem addKeys_keys (p : Picture) (ks : List PictureKey) :
    (p.addKeys ks).keys = p.keys ++ ks ∧ (p.addKeys ks).axes = p.axes := by
  induction ks generalizing p with
  | nil => simp [Picture.addKeys]
  | cons k ks ih =>
      cases k with
      | Custom s =>
          obtain ⟨h1, h2⟩ := ih (p.add_key (PictureKey.Custom s))
          have e : p.addKeys (PictureKey.Custom s :: ks)
              = (p.add_key (PictureKey.Custom s)).addKeys ks := rfl
          have hk : (p.add_key (PictureKey.Custom s)).keys
              = p.keys ++ [PictureKey.Custom s] := rfl
          have ha : (p.add_key (PictureKey.Custom s)).axes = p.axes := rfl
          rw [e]
          exact ⟨by rw [h1, hk]; simp, by rw [h2, ha]⟩

/-- C1: for every sequence of `add_key` calls (all keys use the `Custom`
fallback discriminant, the only one there is), a single call appends the
key, a sequence of calls appends the keys in insertion order with no
removals — so the key list built from a fresh `Picture` is exactly the
list of added keys, of length the number of calls. `add_key` is a total
function: it cannot fail. -/
theorem add_key_custom_appends (p : Picture) (k : PictureKey)
    (ks : List PictureKey) :
    (p.add_key k).keys = p.keys ++ [k] ∧
    (p.addKeys ks).keys = p.keys ++ ks ∧
    (Picture.new.addKeys ks).keys = ks ∧
    (Picture.new.addKeys ks).keys.length = ks.length := by
  have hnew : (Picture.new.addKeys ks).keys = ks := by
    have h := (addKeys_keys Picture.new ks).1
    simpa [Picture.new] using h
  refine ⟨?_, (addKeys_keys p ks).1, hnew, by rw [hnew]⟩
  cases k with
  | Custom s => rfl

/-- C10: `add_key` changes only the `keys` field, by appending the key at
the end; `axes` is unchanged, and the existing keys are kept as a prefix,
unmodified and in their order. -/
theorem add_key_frame (p : Picture) (k : PictureKey) :
    (p.add_key k).axes = p.axes ∧ (p.add_key k).keys = p.keys ++ [k] := by
  cases k with
  | Custom s => exact ⟨rfl, rfl⟩

/-- A filesystem path, as a list of components. -/
abbrev Path := List String

/-- A filesystem entry: a directory, or a file with its contents. -/
inductive Entry where
  | dir
  | file (contents : String)
deriving DecidableEq

/-- A model filesystem: an association list from paths to entries. -/
structure FS where
  entries : List (Path × Entry)
deriving DecidableEq

/-- `Path::exists()`: whether the path is present in the filesystem. -/
def FS.pathExists (fs : FS) (p : Path) : Bool :=
  fs.entries.any (fun e => e.1 == p)

/-- `std::fs::remove_dir_all`: removes the path and everything below it. -/
def FS.removeDirAll (fs : FS) (p : Path) : FS :=
  FS.mk (fs.entries.filter (fun e => !(p.isPrefixOf e.1)))

/-- `std::fs::create_dir`: records a directory at the path. -/
def FS.createDir (fs : FS) (p : Path) : FS :=
  FS.mk ((p, Entry.dir) :: fs.entries)

/-- `std::fs::File::create`: creates the file, truncating any previous one. -/
def FS.createFile (fs : FS) (p : Path) : FS :=
  FS.mk ((p, Entry.file "") :: fs.entries.filter (fun e => !(e.1 == p)))

/-- `File::write_all`: replaces the file contents. -/
def FS.writeFile (fs : FS) (p : Path) (s : String) : FS :=
  FS.mk ((p, Entry.file s) :: fs.entries.filter (fun e => !(e.1 == p)))

/-- Well-formed filesystem: an existing path's proper non-empty prefixes
(its ancestor directories) exist as well. -/
def FS.Wf (fs : FS) : Prop :=
  ∀ e ∈ fs.entries, ∀ q : Path,
    q.isPrefixOf e.1 = true → q ≠ [] → q ≠ e.1 → fs.pathExists q = true

/-- Externally visible operations issued by the pipeline, in issue order. -/
inductive Event where
  | queryExists (p : Path) (result : Bool)
  | removeDirAll (p : Path)
  | createDir (p : Path)
  | createFile (p : Path)
  | writeFile (p : Path) (contents : String)
  | spawn (prog : String) (args : List String) (cwd : Path)
      (stdoutNull : Bool) (stderrNull : Bool)
  | openPath (p : Path)
deriving DecidableEq

/-- Whether an event is a subprocess dispatch. -/
def Event.isSpawn : Event → Bool
  | Event.spawn _ _ _ _ _ => true
  | _ => false

/-- The `ShowPdfError` enum, without the feature-gated `Tectonic` variant:
an I/O error (`IoError`, from `std::io::Error`) or a viewer error
(`Open`, from `opener::OpenError`). -/
inductive ShowPdfError where
  | IoError
  | Open
deriving DecidableEq

/-- The operating-system model threaded through the pipeline: the
filesystem, `std::env::temp_dir()`, an oracle listing whether each
successive fallible filesystem primitive fails, whether a spawned
process launches (`some exitStatus`) or cannot be started (`none`),
whether the viewer opens, and the trace of issued operations. -/
structure St where
  fs : FS
  tempDir : Path
  fsFailures : List Bool
  procLaunch : Option Int
  openOk : Bool
  trace : List Event
deriving DecidableEq

/-- Run one fallible filesystem primitive: consume one oracle entry (an
exhausted oracle means success); on success apply the update, on failure
surface `std::io::Error` as `ShowPdfError::IoError`. The attempted
operation is recorded in the trace either way. -/
def St.fsOp (st : St) (ev : Event) (f : FS → FS) :
    Except ShowPdfError Unit × St :=
  match st.fsFailures with
  | true :: rest =>
      (Except.error ShowPdfError.IoError,
       { st with fsFailures := rest, trace := st.trace ++ [ev] })
  | false :: rest =>
      (Except.ok (),
       { st with fs := f st.fs, fsFailures := rest, trace := st.trace ++ [ev] })
  | [] =>
      (Except.ok (), { st with fs := f st.fs, trace := st.trace ++ [ev] })

/-- `temp_output_dir`: pushes `"output"` onto `std::env::temp_dir()`,
removes the directory recursively if it exists, creates it afresh, and
returns the path; a failing filesystem primitive aborts with its I/O
error. -/
def temp_output_dir (st : St) : Except ShowPdfError Path × St :=
  let path := st.tempDir ++ ["output"]
  let ex := st.fs.pathExists path
  let st1 := { st with trace := st.trace ++ [Event.queryExists path ex] }
  let rm : Except ShowPdfError Unit × St :=
    if ex then st1.fsOp (Event.removeDirAll path) (fun fs => fs.removeDirAll path)
    else (Except.ok (), st1)
  match rm with
  | (Except.error e, st2) => (Except.error e, st2)
  | (Except.ok _, st2) =>
      match st2.fsOp (Event.createDir path) (fun fs => fs.createDir path) with
      | (Except.error e, st3) => (Except.error e, st3)
      | (Except.ok _, st3) => (Except.ok path, st3)

/-- The `OUT_NAME` constant: the fixed job and file stem. -/
def OUT_NAME : String := "figure"

/-- The `Engine` enum. -/
inductive Engine where
  | PdfLatex
deriving DecidableEq

/-- Display for `Engine`. -/
def Engine.render : Engine → String
  | Engine.PdfLatex => "pdflatex"

/-- The `Compiler` enum, without the feature-gated `Tectonic` variant. -/
inductive Compiler where
  | Installed (engine : Engine)
deriving DecidableEq

/-- The fixed argument list `compile_figure_with` passes to the engine,
before the source file name. -/
def fixedEngineArgs : List String :=
  ["-interaction=batchmode", "-halt-on-error", "-jobname=figure"]

/-- `compile_figure_with`: spawns `engine` with null stdout and stderr,
the fixed arguments and the source file name, in working directory
`out_dir`, and waits for it. `Command::status()` fails only when the
process cannot be launched, and `?` surfaces that as an I/O error; the
exit status of a launched process is discarded and the function ends in
`Ok(())`. -/
def compile_figure_with (engine : String) (source : String)
    (out_dir : Path) (st : St) : Except ShowPdfError Unit × St :=
  let ev := Event.spawn engine (fixedEngineArgs ++ [source]) out_dir true true
  let st1 := { st with trace := st.trace ++ [ev] }
  match st.procLaunch with
  | none => (Except.error ShowPdfError.IoError, st1)
  | some _exitStatus => (Except.ok (), st1)

/-- `Picture::show_with` with an installed engine: prepare the scratch
directory, create and write `figure.tex` there, compile it with the
engine, then open `figure.pdf` with the system viewer; the first failing
step aborts the pipeline. -/
def Picture.show_with (p : Picture) (builder : Compiler) (st : St) :
    Except ShowPdfError Unit × St :=
  match builder with
  | Compiler.Installed engine =>
      match temp_output_dir st with
      | (Except.error e, st1) => (Except.error e, st1)
      | (Except.ok out_dir, st1) =>
          let source_file := out_dir ++ [OUT_NAME ++ ".tex"]
          match st1.fsOp (Event.createFile source_file)
              (fun fs => fs.createFile source_file) with
          | (Except.error e, st2) => (Except.error e, st2)
          | (Except.ok _, st2) =>
              match st2.fsOp (Event.writeFile source_file p.standalone_string)
                  (fun fs => fs.writeFile source_file p.standalone_string) with
              | (Except.error e, st3) => (Except.error e, st3)
              | (Except.ok _, st3) =>
                  match compile_figure_with engine.render (OUT_NAME ++ ".tex")
                      out_dir st3 with
                  | (Except.error e, st4) => (Except.error e, st4)
                  | (Except.ok _, st4) =>
                      let out_file := out_dir ++ [OUT_NAME ++ ".pdf"]
                      let st5 := { st4 with
                        trace := st4.trace ++ [Event.openPath out_file] }
                      if st4.openOk then (Except.ok (), st5)
                      else (Except.error ShowPdfError.Open, st5)

/-- The event sequence of a complete successful `show_with` run with an
installed engine: scratch preparation (existence check, conditional
recursive removal, creation), source-file creation and write,
subprocess dispatch, artifact open — in that strict order. -/
def fullTrace (p : Picture) (engine : Engine) (st : St) : List Event :=
  let path := st.tempDir ++ ["output"]
  let ex := st.fs.pathExists path
  let src := path ++ [OUT_NAME ++ ".tex"]
  [Event.queryExists path ex]
    ++ (if ex then [Event.removeDirAll path] else [])
    ++ [Event.createDir path,
        Event.createFile src,
        Event.writeFile src p.standalone_string,
        Event.spawn engine.render (fixedEngineArgs ++ [OUT_NAME ++ ".tex"])
          path true true,
        Event.openPath (path ++ [OUT_NAME ++ ".pdf"])]

theorem fsOp_result (st : St) (ev : Event) (f : FS → FS) :
    st.fsOp ev f
      = (Except.ok (),
         { st with fs := f st.fs, fsFailures := st.fsFailures.tail,
                   trace := st.trace ++ [ev] }) ∧ st.fsFailures.head? ≠ some true ∨
    st.fsOp ev f
      = (Except.error ShowPdfError.IoError,
         { st with fsFailures := st.fsFailures.tail,
                   trace := st.trace ++ [ev] }) ∧ st.fsFailures.head? = some true := by
  unfold St.fsOp
  cases hF : st.fsFailures with
  | nil => exact Or.inl ⟨rfl, by simp⟩
  | cons b rest =>
      cases b with
      | false => exact Or.inl ⟨rfl, by simp⟩
      | true => exact Or.inr ⟨rfl, by simp⟩

theorem temp_output_dir_cases (st : St) :
    st.fs.pathExists (st.tempDir ++ ["output"]) = true ∧
    temp_output_dir st
      = (Except.ok (st.tempDir ++ ["output"]),
         { st with
             fs := (st.fs.removeDirAll (st.tempDir ++ ["output"])).createDir
                     (st.tempDir ++ ["output"]),
             fsFailures := st.fsFailures.tail.tail,
             trace := st.trace
               ++ [Event.queryExists (st.tempDir ++ ["output"]) true,
                   Event.removeDirAll (st.tempDir ++ ["output"]),
                   Event.createDir (st.tempDir ++ ["output"])] }) ∨
    st.fs.pathExists (st.tempDir ++ ["output"]) = false ∧
    temp_output_dir st
      = (Except.ok (st.tempDir ++ ["output"]),
         { st with
             fs := st.fs.createDir (st.tempDir ++ ["output"]),
             fsFailures := st.fsFailures.tail,
             trace := st.trace
               ++ [Event.queryExists (st.tempDir ++ ["output"]) false,
                   Event.createDir (st.tempDir ++ ["output"])] }) ∨
    st.fs.pathExists (st.tempDir ++ ["output"]) = true ∧
    temp_output_dir st
      = (Except.error ShowPdfError.IoError,
         { st with
             fsFailures := st.fsFailures.tail,
             trace := st.trace
               ++ [Event.queryExists (st.tempDir ++ ["output"]) true,
                   Event.removeDirAll (st.tempDir ++ ["output"])] }) ∨
    st.fs.pathExists (st.tempDir ++ ["output"]) = true ∧
    temp_output_dir st
      = (Except.error ShowPdfError.IoError,
         { st with
             fs := st.fs.removeDirAll (st.tempDir ++ ["output"]),
             fsFailures := st.fsFailures.tail.tail,
             trace := st.trace
               ++ [Event.queryExists (st.tempDir ++ ["output"]) true,
                   Event.removeDirAll (st.tempDir ++ ["output"]),
                   Event.createDir (st.tempDir ++ ["output"])] }) ∨
    st.fs.pathExists (st.tempDir ++ ["output"]) = false ∧
    temp_output_dir st
      = (Except.error ShowPdfError.IoError,
         { st with
             fsFailures := st.fsFailures.tail,
             trace := st.trace
               ++ [Event.queryExists (st.tempDir ++ ["output"]) false,
                   Event.createDir (st.tempDir ++ ["output"])] }) := by
  obtain ⟨fs, td, fails, pl, opn, tr⟩ := st
  by_cases hex : fs.pathExists (td ++ ["output"]) = true
  · cases fails with
    | nil =>
        refine Or.inl ⟨hex, ?_⟩
        simp [temp_output_dir, St.fsOp, hex, List.append_assoc]
    | cons b rest =>
        cases b with
        | true =>
            refine Or.inr (Or.inr (Or.inl ⟨hex, ?_⟩))
            simp [temp_output_dir, St.fsOp, hex, List.append_assoc]
        | false =>
            cases rest with
            | nil =>
                refine Or.inl ⟨hex, ?_⟩
                simp [temp_output_dir, St.fsOp, hex, List.append_assoc]
            | cons b2 rest2 =>
                cases b2 with
                | true =>
                    refine Or.inr (Or.inr (Or.inr (Or.inl ⟨hex, ?_⟩)))
                    simp [temp_output_dir, St.fsOp, hex, List.append_assoc]
                | false =>
                    refine Or.inl ⟨hex, ?_⟩
                    simp [temp_output_dir, St.fsOp, hex, List.append_assoc]
  · have hex' : fs.pathExists (td ++ ["output"]) = false := by
      simpa using hex
    cases fails with
    | nil =>
        refine Or.inr (Or.inl ⟨hex', ?_⟩)
        simp [temp_output_dir, St.fsOp, hex', List.append_assoc]
    | cons b rest =>
        cases b with
        | true =>
            refine Or.inr (Or.inr (Or.inr (Or.inr ⟨hex', ?_⟩)))
            simp [temp_output_dir, St.fsOp, hex', List.append_assoc]
        | false =>
            refine Or.inr (Or.inl ⟨hex', ?_⟩)
            simp [temp_output_dir, St.fsOp, hex', List.append_assoc]

theorem pathExists_createDir (fs : FS) (p q : Path) :
    (fs.createDir p).pathExists q = ((p == q) || fs.pathExists q) := by
  simp [FS.createDir, FS.pathExists]

theorem pathExists_removeDirAll (fs : FS) (p q : Path) :
    (fs.removeDirAll p).pathExists q
      = fs.entries.any (fun e => !(p.isPrefixOf e.1) && e.1 == q) := by
  simp [FS.removeDirAll, FS.pathExists, List.any_filter]

theorem pathExists_fresh (fs : FS) (p q : Path)
    (hpre : p.isPrefixOf q = true) (hne : q ≠ p) :
    ((fs.removeDirAll p).createDir p).pathExists q = false := by
  rw [pathExists_createDir, pathExists_removeDirAll]
  have hpq : (p == q) = false := by
    simp only [beq_eq_false_iff_ne, ne_eq]
    exact fun h => hne h.symm
  rw [hpq, Bool.false_or]
  rw [List.any_eq_false]
  intro e _
  by_cases h : e.1 = q
  · simp [h, hpre]
  · have hb : (e.1 == q) = false := by simpa using h
    simp [hb]

theorem pathExists_frame_rm (fs : FS) (p r : Path)
    (hpre : p.isPrefixOf r = false) :
    ((fs.removeDirAll p).createDir p).pathExists r = fs.pathExists r := by
  rw [pathExists_createDir, pathExists_removeDirAll]
  have hpr : (p == r) = false := by
    simp only [beq_eq_false_iff_ne, ne_eq]
    intro h
    rw [h] at hpre
    have hr : List.isPrefixOf r r = true := by
      simp [ List.isPrefixOf_iff_prefix]
    rw [hr] at hpre
    exact Bool.noConfusion hpre
  rw [hpr, Bool.false_or, FS.pathExists]
  rw [Bool.eq_iff_iff, List.any_eq_true, List.any_eq_true]
  constructor
  · rintro ⟨e, he, hb⟩
    exact ⟨e, he, by simpa using (Bool.and_elim_right hb)⟩
  · rintro ⟨e, he, hb⟩
    refine ⟨e, he, ?_⟩
    have : e.1 = r := by simpa using hb
    simp [this, hpre, hb]

theorem pathExists_fresh_wf (fs : FS) (p q : Path)
    (hwf : FS.Wf fs) (hnex : fs.pathExists p = false) (hp : p ≠ [])
    (hpre : p.isPrefixOf q = true) (hne : q ≠ p) :
    (fs.createDir p).pathExists q = false := by
  rw [pathExists_createDir]
  have hpq : (p == q) = false := by
    simp only [beq_eq_false_iff_ne, ne_eq]
    exact fun h => hne h.symm
  rw [hpq, Bool.false_or]
  by_contra h
  rw [Bool.not_eq_false, FS.pathExists, List.any_eq_true] at h
  obtain ⟨e, he, hb⟩ := h
  have heq : e.1 = q := by simpa using hb
  have hex := hwf e he p (by rw [heq]; exact hpre) hp
    (by rw [heq]; exact fun hh => hne hh.symm)
  rw [hex] at hnex
  simp at hnex

theorem beq_false_of_isPrefixOf_false (p r : Path)
    (h : p.isPrefixOf r = false) : (p == r) = false := by
  simp only [beq_eq_false_iff_ne, ne_eq]
  intro hpr
  rw [hpr] at h
  have hr : List.isPrefixOf r r = true := by
    simp [ List.isPrefixOf_iff_prefix]
  rw [hr] at h
  exact Bool.noConfusion h

theorem pathExists_frame_create (fs : FS) (p r : Path)
    (hpre : p.isPrefixOf r = false) :
    (fs.createDir p).pathExists r = fs.pathExists r := by
  rw [pathExists_createDir, beq_false_of_isPrefixOf_false p r hpre,
    Bool.false_or]

/-- C3: scratch preparation uses the fixed path `tempDir ++ ["output"]`:
on success that very path is returned, it exists afresh with nothing
below it (a pre-existing directory there was removed recursively), and
paths outside the scratch tree are untouched; a failing filesystem
primitive surfaces as the I/O error kind. -/
theorem temp_output_dir_spec (st : St) (hwf : FS.Wf st.fs) :
    (∀ q st', temp_output_dir st = (Except.ok q, st') →
       q = st.tempDir ++ ["output"] ∧
       st'.fs.pathExists q = true ∧
       (∀ r, q.isPrefixOf r = true → r ≠ q → st'.fs.pathExists r = false) ∧
       (∀ r, q.isPrefixOf r = false →
          st'.fs.pathExists r = st.fs.pathExists r)) ∧
    (∀ e st', temp_output_dir st = (Except.error e, st') →
       e = ShowPdfError.IoError) := by
  have hp : st.tempDir ++ ["output"] ≠ [] := by simp
  rcases temp_output_dir_cases st with ⟨hex, heq⟩ | ⟨hex, heq⟩ | ⟨hex, heq⟩
    | ⟨hex, heq⟩ | ⟨hex, heq⟩
  · constructor
    · intro q st' h
      rw [heq] at h
      simp only [Prod.mk.injEq, Except.ok.injEq] at h
      obtain ⟨hq, hst⟩ := h
      subst hq
      subst hst
      refine ⟨rfl, ?_, ?_, ?_⟩
      · simp [pathExists_createDir]
      · intro r hpre hne
        exact pathExists_fresh st.fs (st.tempDir ++ ["output"]) r hpre hne
      · intro r hpre
        exact pathExists_frame_rm st.fs (st.tempDir ++ ["output"]) r hpre
    · intro e st' h
      rw [heq] at h
      simp at h
  · constructor
    · intro q st' h
      rw [heq] at h
      simp only [Prod.mk.injEq, Except.ok.injEq] at h
      obtain ⟨hq, hst⟩ := h
      subst hq
      subst hst
      refine ⟨rfl, ?_, ?_, ?_⟩
      · simp [pathExists_createDir]
      · intro r hpre hne
        exact pathExists_fresh_wf st.fs (st.tempDir ++ ["output"]) r hwf hex hp
          hpre hne
      · intro r hpre
        exact pathExists_frame_create st.fs (st.tempDir ++ ["output"]) r hpre
    · intro e st' h
      rw [heq] at h
      simp at h
  · refine ⟨?_, ?_⟩
    · intro q st' h
      rw [heq] at h
      simp at h
    · intro e st' h
      rw [heq] at h
      simp only [Prod.mk.injEq, Except.error.injEq] at h
      exact h.1.symm
  · refine ⟨?_, ?_⟩
    · intro q st' h
      rw [heq] at h
      simp at h
    · intro e st' h
      rw [heq] at h
      simp only [Prod.mk.injEq, Except.error.injEq] at h
      exact h.1.symm
  · refine ⟨?_, ?_⟩
    · intro q st' h
      rw [heq] at h
      simp at h
    · intro e st' h
      rw [heq] at h
      simp only [Prod.mk.injEq, Except.error.injEq] at h
      exact h.1.symm

/-- The part of `show_with` after scratch preparation, as a function of
the prepared directory: create and write the source file, compile, open
the artifact. -/
def tailPipeline (p : Picture) (engine : Engine) (out_dir : Path)
    (st1 : St) : Except ShowPdfError Unit × St :=
  let source_file := out_dir ++ [OUT_NAME ++ ".tex"]
  match st1.fsOp (Event.createFile source_file)
      (fun fs => fs.createFile source_file) with
  | (Except.error e, st2) => (Except.error e, st2)
  | (Except.ok _, st2) =>
      match st2.fsOp (Event.writeFile source_file p.standalone_string)
          (fun fs => fs.writeFile source_file p.standalone_string) with
      | (Except.error e, st3) => (Except.error e, st3)
      | (Except.ok _, st3) =>
          match compile_figure_with engine.render (OUT_NAME ++ ".tex")
              out_dir st3 with
          | (Except.error e, st4) => (Except.error e, st4)
          | (Except.ok _, st4) =>
              let out_file := out_dir ++ [OUT_NAME ++ ".pdf"]
              let st5 := { st4 with
                trace := st4.trace ++ [Event.openPath out_file] }
              if st4.openOk then (Except.ok (), st5)
              else (Except.error ShowPdfError.Open, st5)

/-- The events of the pipeline tail when it completes. -/
def tailTrace (p : Picture) (engine : Engine) (out_dir : Path) :
    List Event :=
  [Event.createFile (out_dir ++ [OUT_NAME ++ ".tex"]),
   Event.writeFile (out_dir ++ [OUT_NAME ++ ".tex"]) p.standalone_string,
   Event.spawn engine.render (fixedEngineArgs ++ [OUT_NAME ++ ".tex"])
     out_dir true true,
   Event.openPath (out_dir ++ [OUT_NAME ++ ".pdf"])]

theorem show_with_eq (p : Picture) (engine : Engine) (st : St) :
    p.show_with (Compiler.Installed engine) st
      = match temp_output_dir st with
        | (Except.error e, st1) => (Except.error e, st1)
        | (Except.ok out_dir, st1) => tailPipeline p engine out_dir st1 := by
  rcases h : temp_output_dir st with ⟨r, st1⟩
  cases r with
  | error e => simp [Picture.show_with, h]
  | ok out_dir => simp [Picture.show_with, h, tailPipeline]




theorem tail_run (p : Picture) (engine : Engine) (out_dir : Path)
    (st1 : St) :
    (∃ t, ((tailPipeline p engine out_dir st1).2).trace = st1.trace ++ t ∧
        t <+: tailTrace p engine out_dir ∧
        ((tailPipeline p engine out_dir st1).1 = Except.ok () →
          t = tailTrace p engine out_dir)) ∧
    (st1.procLaunch = none →
      (tailPipeline p engine out_dir st1).1
        = Except.error ShowPdfError.IoError) ∧
    (∀ e args cwd o1 o2,
      Event.spawn e args cwd o1 o2
          ∈ ((tailPipeline p engine out_dir st1).2).trace →
      Event.spawn e args cwd o1 o2 ∈ st1.trace ∨
      (e = engine.render ∧ args = fixedEngineArgs ++ [OUT_NAME ++ ".tex"] ∧
       cwd = out_dir ∧ o1 = true ∧ o2 = true)) := by
  obtain ⟨fs1, td1, fails1, pl1, opn1, tr1⟩ := st1
  cases fails1 with
  | nil =>
      cases pl1 with
      | none =>
          refine ⟨⟨[Event.createFile (out_dir ++ [OUT_NAME ++ ".tex"]),
              Event.writeFile (out_dir ++ [OUT_NAME ++ ".tex"])
                p.standalone_string,
              Event.spawn engine.render
                (fixedEngineArgs ++ [OUT_NAME ++ ".tex"]) out_dir true true],
            ?_, ?_, ?_⟩, ?_, ?_⟩
          · simp [tailPipeline, St.fsOp, compile_figure_with,
              List.append_assoc]
          · exact ⟨[Event.openPath (out_dir ++ [OUT_NAME ++ ".pdf"])],
              by simp [tailTrace]⟩
          · intro h
            simp [tailPipeline, St.fsOp, compile_figure_with] at h
          · intro _
            simp [tailPipeline, St.fsOp, compile_figure_with]
          · intro e args cwd o1 o2 h
            simp [tailPipeline, St.fsOp, compile_figure_with] at h
            tauto
      | some c =>
          cases opn1 with
          | true =>
              refine ⟨⟨tailTrace p engine out_dir, ?_, List.prefix_rfl,
                fun _ => rfl⟩, ?_, ?_⟩
              · simp [tailPipeline, St.fsOp, compile_figure_with, tailTrace,
                  List.append_assoc]
              · intro h
                simp at h
              · intro e args cwd o1 o2 h
                simp [tailPipeline, St.fsOp, compile_figure_with] at h
                tauto
          | false =>
              refine ⟨⟨tailTrace p engine out_dir, ?_, List.prefix_rfl,
                ?_⟩, ?_, ?_⟩
              · simp [tailPipeline, St.fsOp, compile_figure_with, tailTrace,
                  List.append_assoc]
              · intro h
                simp [tailPipeline, St.fsOp, compile_figure_with] at h
              · intro h
                simp at h
              · intro e args cwd o1 o2 h
                simp [tailPipeline, St.fsOp, compile_figure_with] at h
                tauto
  | cons b rest =>
      cases b with
      | true =>
          refine ⟨⟨[Event.createFile (out_dir ++ [OUT_NAME ++ ".tex"])],
            ?_, ?_, ?_⟩, ?_, ?_⟩
          · simp [tailPipeline, St.fsOp]
          · exact ⟨[Event.writeFile (out_dir ++ [OUT_NAME ++ ".tex"])
                p.standalone_string,
              Event.spawn engine.render
                (fixedEngineArgs ++ [OUT_NAME ++ ".tex"]) out_dir true true,
              Event.openPath (out_dir ++ [OUT_NAME ++ ".pdf"])],
              by simp [tailTrace]⟩
          · intro h
            simp [tailPipeline, St.fsOp] at h
          · intro _
            simp [tailPipeline, St.fsOp]
          · intro e args cwd o1 o2 h
            simp [tailPipeline, St.fsOp] at h
            tauto
      | false =>
          cases rest with
          | nil =>
            cases pl1 with
            | none =>
                refine ⟨⟨[Event.createFile (out_dir ++ [OUT_NAME ++ ".tex"]),
                    Event.writeFile (out_dir ++ [OUT_NAME ++ ".tex"])
                      p.standalone_string,
                    Event.spawn engine.render
                      (fixedEngineArgs ++ [OUT_NAME ++ ".tex"]) out_dir true true],
                  ?_, ?_, ?_⟩, ?_, ?_⟩
                · simp [tailPipeline, St.fsOp, compile_figure_with,
                    List.append_assoc]
                · exact ⟨[Event.openPath (out_dir ++ [OUT_NAME ++ ".pdf"])],
                    by simp [tailTrace]⟩
                · intro h
                  simp [tailPipeline, St.fsOp, compile_figure_with] at h
                · intro _
                  simp [tailPipeline, St.fsOp, compile_figure_with]
                · intro e args cwd o1 o2 h
                  simp [tailPipeline, St.fsOp, compile_figure_with] at h
                  tauto
            | some c =>
                cases opn1 with
                | true =>
                    refine ⟨⟨tailTrace p engine out_dir, ?_, List.prefix_rfl,
                      fun _ => rfl⟩, ?_, ?_⟩
                    · simp [tailPipeline, St.fsOp, compile_figure_with, tailTrace,
                        List.append_assoc]
                    · intro h
                      simp at h
                    · intro e args cwd o1 o2 h
                      simp [tailPipeline, St.fsOp, compile_figure_with] at h
                      tauto
                | false =>
                    refine ⟨⟨tailTrace p engine out_dir, ?_, List.prefix_rfl,
                      ?_⟩, ?_, ?_⟩
                    · simp [tailPipeline, St.fsOp, compile_figure_with, tailTrace,
                        List.append_assoc]
                    · intro h
                      simp [tailPipeline, St.fsOp, compile_figure_with] at h
                    · intro h
                      simp at h
                    · intro e args cwd o1 o2 h
                      simp [tailPipeline, St.fsOp, compile_figure_with] at h
                      tauto
          | cons b2 rest2 =>
              cases b2 with
              | true =>
                  refine ⟨⟨[Event.createFile (out_dir ++ [OUT_NAME ++ ".tex"]),
                      Event.writeFile (out_dir ++ [OUT_NAME ++ ".tex"])
                        p.standalone_string],
                    ?_, ?_, ?_⟩, ?_, ?_⟩
                  · simp [tailPipeline, St.fsOp, List.append_assoc]
                  · exact ⟨[Event.spawn engine.render
                        (fixedEngineArgs ++ [OUT_NAME ++ ".tex"])
                        out_dir true true,
                      Event.openPath (out_dir ++ [OUT_NAME ++ ".pdf"])],
                      by simp [tailTrace]⟩
                  · intro h
                    simp [tailPipeline, St.fsOp] at h
                  · intro _
                    simp [tailPipeline, St.fsOp]
                  · intro e args cwd o1 o2 h
                    simp [tailPipeline, St.fsOp] at h
                    tauto
              | false =>
                cases pl1 with
                | none =>
                    refine ⟨⟨[Event.createFile (out_dir ++ [OUT_NAME ++ ".tex"]),
                        Event.writeFile (out_dir ++ [OUT_NAME ++ ".tex"])
                          p.standalone_string,
                        Event.spawn engine.render
                          (fixedEngineArgs ++ [OUT_NAME ++ ".tex"]) out_dir true true],
                      ?_, ?_, ?_⟩, ?_, ?_⟩
                    · simp [tailPipeline, St.fsOp, compile_figure_with,
                        List.append_assoc]
                    · exact ⟨[Event.openPath (out_dir ++ [OUT_NAME ++ ".pdf"])],
                        by simp [tailTrace]⟩
                    · intro h
                      simp [tailPipeline, St.fsOp, compile_figure_with] at h
                    · intro _
                      simp [tailPipeline, St.fsOp, compile_figure_with]
                    · intro e args cwd o1 o2 h
                      simp [tailPipeline, St.fsOp, compile_figure_with] at h
                      tauto
                | some c =>
                    cases opn1 with
                    | true =>
                        refine ⟨⟨tailTrace p engine out_dir, ?_, List.prefix_rfl,
                          fun _ => rfl⟩, ?_, ?_⟩
                        · simp [tailPipeline, St.fsOp, compile_figure_with, tailTrace,
                            List.append_assoc]
                        · intro h
                          simp at h
                        · intro e args cwd o1 o2 h
                          simp [tailPipeline, St.fsOp, compile_figure_with] at h
                          tauto
                    | false =>
                        refine ⟨⟨tailTrace p engine out_dir, ?_, List.prefix_rfl,
                          ?_⟩, ?_, ?_⟩
                        · simp [tailPipeline, St.fsOp, compile_figure_with, tailTrace,
                            List.append_assoc]
                        · intro h
                          simp [tailPipeline, St.fsOp, compile_figure_with] at h
                        · intro h
                          simp at h
                        · intro e args cwd o1 o2 h
                          simp [tailPipeline, St.fsOp, compile_figure_with] at h
                          tauto

theorem prefix_append_left {α : Type} (pre t tt : List α) (h : t <+: tt) :
    pre ++ t <+: pre ++ tt := by
  obtain ⟨r, hr⟩ := h
  exact ⟨r, by rw [List.append_assoc, hr]⟩

theorem show_with_run (p : Picture) (engine : Engine) (st : St) :
    (∃ t, ((p.show_with (Compiler.Installed engine) st).2).trace
        = st.trace ++ t ∧ t <+: fullTrace p engine st) ∧
    ((p.show_with (Compiler.Installed engine) st).1 = Except.ok () →
      ((p.show_with (Compiler.Installed engine) st).2).trace
        = st.trace ++ fullTrace p engine st) ∧
    (st.procLaunch = none →
      (p.show_with (Compiler.Installed engine) st).1
        = Except.error ShowPdfError.IoError) ∧
    (∀ e args cwd o1 o2,
      Event.spawn e args cwd o1 o2
          ∈ ((p.show_with (Compiler.Installed engine) st).2).trace →
      Event.spawn e args cwd o1 o2 ∈ st.trace ∨
      (e = engine.render ∧ args = fixedEngineArgs ++ [OUT_NAME ++ ".tex"] ∧
       cwd = st.tempDir ++ ["output"] ∧ o1 = true ∧ o2 = true)) := by
  rw [show_with_eq p engine st]
  rcases temp_output_dir_cases st with ⟨hex, heq⟩ | ⟨hex, heq⟩ | ⟨hex, heq⟩
    | ⟨hex, heq⟩ | ⟨hex, heq⟩
  · simp only [heq]
    obtain ⟨⟨t, htr, hpre2, hok⟩, hpl, hmem⟩ :=
      tail_run p engine (st.tempDir ++ ["output"])
        { st with
            fs := (st.fs.removeDirAll (st.tempDir ++ ["output"])).createDir
                    (st.tempDir ++ ["output"]),
            fsFailures := st.fsFailures.tail.tail,
            trace := st.trace
              ++ [Event.queryExists (st.tempDir ++ ["output"]) true,
                  Event.removeDirAll (st.tempDir ++ ["output"]),
                  Event.createDir (st.tempDir ++ ["output"])] }
    have hfull : fullTrace p engine st
        = [Event.queryExists (st.tempDir ++ ["output"]) true,
           Event.removeDirAll (st.tempDir ++ ["output"]),
           Event.createDir (st.tempDir ++ ["output"])]
          ++ tailTrace p engine (st.tempDir ++ ["output"]) := by
      simp [fullTrace, tailTrace, hex]
    refine ⟨⟨[Event.queryExists (st.tempDir ++ ["output"]) true,
        Event.removeDirAll (st.tempDir ++ ["output"]),
        Event.createDir (st.tempDir ++ ["output"])] ++ t, ?_, ?_⟩,
      ?_, ?_, ?_⟩
    · rw [htr]
      simp [List.append_assoc]
    · rw [hfull]
      exact prefix_append_left _ t _ hpre2
    · intro h
      rw [htr, hok h, hfull]
      simp [List.append_assoc]
    · intro h
      exact hpl h
    · intro e args cwd o1 o2 h
      rcases hmem e args cwd o1 o2 h with hin | hfix
      · simp only [List.mem_append, List.mem_cons, List.not_mem_nil,
          or_false] at hin
        rcases hin with hin | hin | hin | hin
        · exact Or.inl hin
        all_goals simp at hin
      · exact Or.inr hfix
  · simp only [heq]
    obtain ⟨⟨t, htr, hpre2, hok⟩, hpl, hmem⟩ :=
      tail_run p engine (st.tempDir ++ ["output"])
        { st with
            fs := st.fs.createDir (st.tempDir ++ ["output"]),
            fsFailures := st.fsFailures.tail,
            trace := st.trace
              ++ [Event.queryExists (st.tempDir ++ ["output"]) false,
                  Event.createDir (st.tempDir ++ ["output"])] }
    have hfull : fullTrace p engine st
        = [Event.queryExists (st.tempDir ++ ["output"]) false,
           Event.createDir (st.tempDir ++ ["output"])]
          ++ tailTrace p engine (st.tempDir ++ ["output"]) := by
      simp [fullTrace, tailTrace, hex]
    refine ⟨⟨[Event.queryExists (st.tempDir ++ ["output"]) false,
        Event.createDir (st.tempDir ++ ["output"])] ++ t, ?_, ?_⟩,
      ?_, ?_, ?_⟩
    · rw [htr]
      simp [List.append_assoc]
    · rw [hfull]
      exact prefix_append_left _ t _ hpre2
    · intro h
      rw [htr, hok h, hfull]
      simp [List.append_assoc]
    · intro h
      exact hpl h
    · intro e args cwd o1 o2 h
      rcases hmem e args cwd o1 o2 h with hin | hfix
      · simp only [List.mem_append, List.mem_cons, List.not_mem_nil,
          or_false] at hin
        rcases hin with hin | hin | hin
        · exact Or.inl hin
        all_goals simp at hin
      · exact Or.inr hfix
  · simp only [heq]
    refine ⟨⟨[Event.queryExists (st.tempDir ++ ["output"]) true,
        Event.removeDirAll (st.tempDir ++ ["output"])], rfl, ?_⟩,
      ?_, ?_, ?_⟩
    · refine ⟨[Event.createDir (st.tempDir ++ ["output"])]
          ++ tailTrace p engine (st.tempDir ++ ["output"]), ?_⟩
      simp [fullTrace, tailTrace, hex]
    · intro h
      simp at h
    · intro _
      trivial
    · intro e args cwd o1 o2 h
      simp only [List.mem_append, List.mem_cons, List.not_mem_nil,
        or_false] at h
      rcases h with h | h | h
      · exact Or.inl h
      all_goals simp at h
  · simp only [heq]
    refine ⟨⟨[Event.queryExists (st.tempDir ++ ["output"]) true,
        Event.removeDirAll (st.tempDir ++ ["output"]),
        Event.createDir (st.tempDir ++ ["output"])], rfl, ?_⟩,
      ?_, ?_, ?_⟩
    · refine ⟨tailTrace p engine (st.tempDir ++ ["output"]), ?_⟩
      simp [fullTrace, tailTrace, hex]
    · intro h
      simp at h
    · intro _
      trivial
    · intro e args cwd o1 o2 h
      simp only [List.mem_append, List.mem_cons, List.not_mem_nil,
        or_false] at h
      rcases h with h | h | h | h
      · exact Or.inl h
      all_goals simp at h
  · simp only [heq]
    refine ⟨⟨[Event.queryExists (st.tempDir ++ ["output"]) false,
        Event.createDir (st.tempDir ++ ["output"])], rfl, ?_⟩,
      ?_, ?_, ?_⟩
    · refine ⟨tailTrace p engine (st.tempDir ++ ["output"]), ?_⟩
      simp [fullTrace, tailTrace, hex]
    · intro h
      simp at h
    · intro _
      trivial
    · intro e args cwd o1 o2 h
      simp only [List.mem_append, List.mem_cons, List.not_mem_nil,
        or_false] at h
      rcases h with h | h | h
      · exact Or.inl h
      all_goals simp at h

/-- A concrete state: empty filesystem, no injected filesystem failures,
processes launch and exit with status 0, the viewer opens. -/
def stAllOk : St :=
  { fs := FS.mk [], tempDir := ["tmp"], fsFailures := [],
    procLaunch := some 0, openOk := true, trace := [] }

/-- A concrete state whose subprocess launches and exits with status 1. -/
def stExitOne : St := { stAllOk with procLaunch := some 1 }

/-- A concrete state whose subprocess cannot be launched. -/
def stNoLaunch : St := { stAllOk with procLaunch := none }

/-- A concrete state whose first fallible filesystem primitive fails. -/
def stFsFail : St := { stAllOk with fsFailures := [true] }

/-- C2 counterexample: a subprocess that launches and exits with the
non-zero status 1 still makes `compile_figure_with` report success; the
exit status is not consulted. -/
theorem compile_ignores_exit_status :
    stExitOne.procLaunch = some 1 ∧
    (compile_figure_with "pdflatex" "figure.tex" ["tmp", "output"]
        stExitOne).1 = Except.ok () :=
  ⟨rfl, rfl⟩

/-- C2 amended: success or failure of `compile_figure_with` is determined
solely by whether the subprocess could be launched and awaited — a launch
error surfaces as the I/O error, while the exit status of a launched
subprocess is discarded (even a non-zero exit reports success); the
subprocess's standard output and standard error are discarded, never
parsed. -/
theorem compile_result_from_launch_only (engine source : String)
    (out_dir : Path) (st : St) :
    (st.procLaunch = none →
      compile_figure_with engine source out_dir st
        = (Except.error ShowPdfError.IoError,
           { st with trace := st.trace
               ++ [Event.spawn engine (fixedEngineArgs ++ [source])
                     out_dir true true] })) ∧
    (∀ c, st.procLaunch = some c →
      compile_figure_with engine source out_dir st
        = (Except.ok (),
           { st with trace := st.trace
               ++ [Event.spawn engine (fixedEngineArgs ++ [source])
                     out_dir true true] })) := by
  constructor
  · intro h
    simp [compile_figure_with, h]
  · intro c h
    simp [compile_figure_with, h]

/-- Witness for the amended C2 at concrete states. -/
theorem compile_result_from_launch_only_witness :
    (compile_figure_with "pdflatex" "figure.tex" ["tmp", "output"]
        stNoLaunch).1 = Except.error ShowPdfError.IoError ∧
    (compile_figure_with "pdflatex" "figure.tex" ["tmp", "output"]
        stExitOne).1 = Except.ok () := by
  constructor
  · rw [(compile_result_from_launch_only "pdflatex" "figure.tex"
      ["tmp", "output"] stNoLaunch).1 rfl]
  · rw [(compile_result_from_launch_only "pdflatex" "figure.tex"
      ["tmp", "output"] stExitOne).2 1 rfl]

/-- Witness for C3 at a concrete state: preparation succeeds, returns the
fixed path under the temp root, and the directory exists afterwards. -/
theorem temp_output_dir_spec_witness :
    temp_output_dir stAllOk
        = (Except.ok ["tmp", "output"], (temp_output_dir stAllOk).2) ∧
    ((temp_output_dir stAllOk).2).fs.pathExists ["tmp", "output"]
      = true := by
  have hwf : FS.Wf stAllOk.fs := by
    intro e he
    exact absurd he (by simp [stAllOk])
  have heq : temp_output_dir stAllOk
      = (Except.ok ["tmp", "output"], (temp_output_dir stAllOk).2) := rfl
  have h := (temp_output_dir_spec stAllOk hwf).1 ["tmp", "output"]
    ((temp_output_dir stAllOk).2) heq
  exact ⟨heq, h.2.1⟩

/-- C4: rendering with an empty key list omits the bracketed options
clause entirely; rendering with at least one key emits, between the
opening and closing tags, a bracketed clause containing every key of the
list exactly once, in list order, one key per line, tab-indented and
comma-terminated. -/
theorem render_options_clause (p : Picture) :
    (p.keys = [] →
      p.render = "\\begin{tikzpicture}\n"
        ++ strConcat (fun a => a.render ++ "\n") p.axes
        ++ "\\end{tikzpicture}") ∧
    (p.keys ≠ [] →
      p.render = "\\begin{tikzpicture}[\n"
        ++ strConcat (fun k => "\t" ++ k.render ++ ",\n") p.keys
        ++ "]\n"
        ++ strConcat (fun a => a.render ++ "\n") p.axes
        ++ "\\end{tikzpicture}") := by
  constructor
  · intro h
    simp only [Picture.render, h, List.isEmpty_nil, if_true]
    simp [String.append_assoc]
  · intro h
    have hne : p.keys.isEmpty = false := by
      cases hk : p.keys with
      | nil => exact absurd hk h
      | cons a l => rfl
    simp only [Picture.render, hne, Bool.false_eq_true, if_false]
    simp [String.append_assoc]
    rfl

/-- A concrete picture with no keys and one axis. -/
def picNoKeys : Picture := { keys := [], axes := [Axis.mk "A"] }

/-- A concrete picture with one key and no axes. -/
def picOneKey : Picture :=
  { keys := [PictureKey.Custom "scale=2"], axes := [] }

/-- Witness for C4 at concrete pictures: no bracket clause without keys,
a bracketed tab-indented comma-terminated clause with one key. -/
theorem render_options_clause_witness :
    Picture.render picNoKeys
      = "\\begin{tikzpicture}\nA\n\\end{tikzpicture}" ∧
    Picture.render picOneKey
      = "\\begin{tikzpicture}[\n\tscale=2,\n]\n\\end{tikzpicture}" := by
  constructor
  · rw [(render_options_clause picNoKeys).1 rfl]
    rfl
  · rw [(render_options_clause picOneKey).2 (by simp [picOneKey])]
    rfl

/-- C5: `standalone_string` equals the fixed preamble, then the rendered
picture, then the fixed closing; for a freshly created empty `Picture`
it is exactly the specified document text. -/
theorem standalone_string_spec (p : Picture) :
    p.standalone_string
      = "\\documentclass{standalone}\n\\usepackage{pgfplots}\n\\begin{document}\n"
        ++ p.render ++ "\n\\end{document}" ∧
    Picture.new.standalone_string
      = "\\documentclass{standalone}\n\\usepackage{pgfplots}\n\\begin{document}\n\\begin{tikzpicture}\n\\end{tikzpicture}\n\\end{document}" :=
  ⟨rfl, rfl⟩

/-- C6: rendering is pure and deterministic — the formatter-threading
rendering returns the picture unmutated, appends exactly the rendered
text to the buffer, rendering the returned structure again is the
identical computation (byte-identical text), and `standalone_string` on
the returned structure is unchanged. -/
theorem rendering_pure (p : Picture) (buf : String) :
    (p.fmtDisplay buf).2 = p ∧
    (p.fmtDisplay buf).1 = buf ++ p.render ∧
    (p.fmtDisplay buf).2.fmtDisplay buf = p.fmtDisplay buf ∧
    (p.fmtDisplay buf).2.standalone_string = p.standalone_string := by
  simp [fmtDisplay_eq]

/-- C7: every subprocess dispatched by `show_with` with an installed
engine is the engine executable with exactly the fixed argument list
`-interaction=batchmode -halt-on-error -jobname=figure figure.tex`, run
in the scratch directory with standard output and standard error
discarded — independent of the picture's content — and a successful run
dispatches exactly one subprocess. -/
theorem engine_invocation_fixed (p : Picture) (engine : Engine) (st : St)
    (h : st.trace = []) :
    (∀ e args cwd o1 o2,
      Event.spawn e args cwd o1 o2
          ∈ ((p.show_with (Compiler.Installed engine) st).2).trace →
      e = engine.render ∧
      args = fixedEngineArgs ++ [OUT_NAME ++ ".tex"] ∧
      cwd = st.tempDir ++ ["output"] ∧ o1 = true ∧ o2 = true) ∧
    ((p.show_with (Compiler.Installed engine) st).1 = Except.ok () →
      ((p.show_with (Compiler.Installed engine) st).2).trace.countP
        Event.isSpawn = 1) := by
  obtain ⟨_, hfullEq, _, hmem⟩ := show_with_run p engine st
  constructor
  · intro e args cwd o1 o2 hmem2
    rcases hmem e args cwd o1 o2 hmem2 with hin | hfix
    · rw [h] at hin
      exact absurd hin (List.not_mem_nil _)
    · exact hfix
  · intro hok
    rw [hfullEq hok, h, List.nil_append]
    by_cases hex : st.fs.pathExists (st.tempDir ++ ["output"]) = true
    · simp [fullTrace, hex, Event.isSpawn]
    · have hex' : st.fs.pathExists (st.tempDir ++ ["output"]) = false := by
        simpa using hex
      simp [fullTrace, hex', Event.isSpawn]

/-- Witness for C7 at a concrete state: the pipeline succeeds and its
trace contains exactly one subprocess dispatch. -/
theorem engine_invocation_fixed_witness :
    (Picture.new.show_with (Compiler.Installed Engine.PdfLatex)
        stAllOk).1 = Except.ok () ∧
    ((Picture.new.show_with (Compiler.Installed Engine.PdfLatex)
        stAllOk).2).trace.countP Event.isSpawn = 1 := by
  have h := engine_invocation_fixed Picture.new Engine.PdfLatex stAllOk rfl
  exact ⟨rfl, h.2 rfl⟩

/-- C8 counterexample: an engine that cannot be started surfaces as
`ShowPdfError::IoError` — the very same error kind an ordinary
filesystem failure produces — not as a dedicated launch-failure kind. -/
theorem launch_failure_same_kind_as_fs_error :
    (Picture.new.show_with (Compiler.Installed Engine.PdfLatex)
        stNoLaunch).1 = Except.error ShowPdfError.IoError ∧
    (Picture.new.show_with (Compiler.Installed Engine.PdfLatex)
        stFsFail).1 = Except.error ShowPdfError.IoError :=
  ⟨rfl, rfl⟩

/-- C8 amended: running the external-process strategy with an engine
that cannot be started always produces a failure surfaced to the caller
— never a silent success — as `ShowPdfError::IoError`, the error kind
shared with filesystem I/O failures rather than a dedicated
launch-failure kind. -/
theorem launch_failure_surfaced (p : Picture) (engine : Engine) (st : St)
    (h : st.procLaunch = none) :
    (p.show_with (Compiler.Installed engine) st).1
      = Except.error ShowPdfError.IoError :=
  (show_with_run p engine st).2.2.1 h

/-- Witness for the amended C8 at a concrete state. -/
theorem launch_failure_surfaced_witness :
    stNoLaunch.procLaunch = none ∧
    (Picture.new.show_with (Compiler.Installed Engine.PdfLatex)
        stNoLaunch).1 = Except.error ShowPdfError.IoError :=
  ⟨rfl, launch_failure_surfaced Picture.new Engine.PdfLatex stNoLaunch rfl⟩

/-- C9: the pipeline's trace is always a prefix of the strictly ordered
full-run event sequence — existence check, conditional recursive
removal, directory creation, `figure.tex` creation and write, subprocess
dispatch (exit awaited), `figure.pdf` open — so each step completes
before the next starts, and the first failing step ends the trace with
no later step running; a successful run performs exactly the whole
sequence. -/
theorem pipeline_sequential (p : Picture) (engine : Engine) (st : St)
    (h : st.trace = []) :
    ((p.show_with (Compiler.Installed engine) st).2).trace
        <+: fullTrace p engine st ∧
    ((p.show_with (Compiler.Installed engine) st).1 = Except.ok () →
      ((p.show_with (Compiler.Installed engine) st).2).trace
        = fullTrace p engine st) := by
  obtain ⟨⟨t, htr, hpre2⟩, hfullEq, _, _⟩ := show_with_run p engine st
  constructor
  · rw [htr, h, List.nil_append]
    exact hpre2
  · intro hok
    rw [hfullEq hok, h, List.nil_append]

/-- Witness for C9 at a concrete state: the successful run's trace is
exactly the full-run event sequence. -/
theorem pipeline_sequential_witness :
    ((Picture.new.show_with (Compiler.Installed Engine.PdfLatex)
        stAllOk).2).trace
      = fullTrace Picture.new Engine.PdfLatex stAllOk := by
  have h := pipeline_sequential Picture.new Engine.PdfLatex stAllOk rfl
  exact h.2 rfl
